import Mathlib

/-
Verification of the planner service in src/planner/app.py.

Python strings are modelled as lists of characters (code points), Python's
dynamically-typed JSON-like values as the inductive type `Json`, Python dicts
as association lists with string keys (first match wins; dicts have unique
keys so this is exact), and Python exceptions as `Option`/`Except` results
(`none` / `.error` = the corresponding call raises).  The hosted-model
transport is an external collaborator: its responses (and the `json.loads`
parser behaviour) enter the embedded functions as explicit parameters.
-/

namespace Planner

/-- A Python `str`, modelled as its sequence of code points. -/
abbrev Str := List Char

/-- Convert a Lean string literal to the `Str` model. -/
def chars (s : String) : Str := s.toList

/-- Dynamically-typed JSON-like Python values (dict/list/str/int/bool/None). -/
inductive Json where
  | null : Json
  | bool (b : Bool) : Json
  | num (n : Int) : Json
  | str (s : Str) : Json
  | arr (l : List Json) : Json
  | obj (kvs : List (String × Json)) : Json

/-- Python truthiness of a `Json` value (`if v:`). -/
def truthy : Json → Bool
  | .null => false
  | .bool b => b
  | .num n => n != 0
  | .str s => !s.isEmpty
  | .arr l => !l.isEmpty
  | .obj kvs => !kvs.isEmpty

/-- Dict lookup, `d.get(k)`: first binding of the key wins. -/
def lookupKey (k : String) : List (String × Json) → Option Json
  | [] => none
  | (k', v) :: rest => if k' = k then some v else lookupKey k rest

/-- A trace-bus event as pushed by `trace(session_id, kind, payload)`:
the `kind` tag together with the distinguishing part of the payload. -/
abbrev TraceEv := String × String

/-! ### Model Gateway (`BedrockClient._retry_without_tools_if_needed`, app.py 49-60) -/

/-- Exceptions the transport can raise: `botocore.exceptions.ParamValidationError`
(caught by the gateway) or anything else (not caught). -/
inductive PyErr where
  | paramValidation (msg : String) : PyErr
  | other (msg : String) : PyErr
deriving DecidableEq

/-- A transport request dict (`req` in `converse`/`converse_stream`). -/
abbrev ReqDict := List (String × Json)

/-- `req2.pop("tools", None); req2.pop("toolConfig", None)` applied to a copy. -/
def strip_tools (req : ReqDict) : ReqDict :=
  req.filter fun kv => kv.1 != "tools" && kv.1 != "toolConfig"

/-- A single-quote character (code point 39). -/
def squote : Char := Char.ofNat 39

/-- Whether a needle occurs inside a hay string (Python `in`). -/
def isInfixChars (needle hay : Str) : Bool :=
  hay.tails.any (fun t => List.isPrefixOf needle t)

/-- The gateway's trigger test, app.py line 54:
the error message contains `Unknown parameter in input: "tools"` with either
double or single quotes around `tools`. -/
def names_tools_param (m : String) : Bool :=
  isInfixChars (chars "Unknown parameter in input: \"tools\"") (chars m) ||
  isInfixChars (chars "Unknown parameter in input: " ++ [squote] ++ chars "tools" ++ [squote]) (chars m)

/-- `BedrockClient._retry_without_tools_if_needed` (app.py 49-60): call `fn req`;
if it raises a `ParamValidationError` whose message names `tools`, strip the
`tools`/`toolConfig` keys and call `fn` once more (uncaught); re-raise any
other `ParamValidationError`; any non-validation exception is not caught. -/
def retry_without_tools_if_needed {α : Type} (fn : ReqDict → Except PyErr α) (req : ReqDict) :
    Except PyErr α :=
  match fn req with
  | .ok r => .ok r
  | .error (.paramValidation m) =>
      if names_tools_param m then fn (strip_tools req)
      else .error (.paramValidation m)
  | .error e => .error e

/-! ### Tool-Call Capture (`_ToolCapture.absorb`, app.py 397-405) -/

/-- `_ToolCapture.absorb(part)` (app.py 400-405), one content part.
`none` models a raised exception: a truthy non-dict `toolUse` value makes
`tu.get("input")` raise `AttributeError`, and a non-dict part makes
`part.get` raise.  Otherwise returns the updated `self.actions`. -/
def absorbPy (st : List Json) (part : Json) : Option (List Json) :=
  match part with
  | .obj kvs =>
      match lookupKey "toolUse" kvs with
      | none => some st
      | some tu =>
          if truthy tu then
            match tu with
            | .obj tkvs =>
                match lookupKey "input" tkvs with
                | some (.obj ikvs) =>
                    some (match lookupKey "actions" ikvs with
                          | some (.arr l) => l
                          | _ => st)
                | _ => some st
            | _ => none
          else some st
  | _ => none

/-- Absorb a whole sequence of content parts in order, as the orchestrator
does (`for part in ...: capture.absorb(part)`); `none` if any call raises. -/
def absorbAll (st : List Json) : List Json → Option (List Json)
  | [] => some st
  | p :: ps =>
      match absorbPy st p with
      | none => none
      | some st1 => absorbAll st1 ps

/-- The action list a single part contributes when it qualifies: it must be a
dict with a truthy dict `toolUse` whose `input` is a dict whose `actions`
value is a list (app.py 401-405). -/
def qualifyActions (part : Json) : Option (List Json) :=
  match part with
  | .obj kvs =>
      match lookupKey "toolUse" kvs with
      | none => none
      | some tu =>
          if truthy tu then
            match tu with
            | .obj tkvs =>
                match lookupKey "input" tkvs with
                | some (.obj ikvs) =>
                    match lookupKey "actions" ikvs with
                    | some (.arr l) => some l
                    | _ => none
                | _ => none
            | _ => none
          else none
  | _ => none

/-- Whether absorbing this part raises (truthy non-dict `toolUse`, or the part
itself is not a dict). -/
def absorbCrashes (part : Json) : Bool :=
  match part with
  | .obj kvs =>
      match lookupKey "toolUse" kvs with
      | none => false
      | some tu =>
          if truthy tu then
            match tu with
            | .obj _ => false
            | _ => true
          else false
  | _ => true

/-- The `actions` list of the last qualifying part of a sequence, if any. -/
def lastQualified : List Json → Option (List Json)
  | [] => none
  | p :: rest =>
      match lastQualified rest with
      | some l => some l
      | none => qualifyActions p

/-! ### Context Snapshot Builder (`_context_blob`, app.py 407-420) -/

/-- The per-file header, app.py line 413. -/
def headerChars (rel : String) : Str := chars ("\n--- FILE: " ++ rel ++ " ---\n")

/-- The loop of `_context_blob` (app.py 411-419) over a string-valued file
mapping, returning the emitted (header, body) chunks.  `budget - (used + h)`
in `Nat` is Python's `max(0, char_budget - used - len(header))`. -/
def blobChunks : List (String × Str) → Nat → Nat → List (Str × Str)
  | [], _, _ => []
  | (rel, src) :: rest, budget, used =>
      let h := headerChars rel
      let tk := budget - (used + h.length)
      if tk = 0 then []
      else
        let body := if src.length ≤ tk then src else src.take tk
        let used' := used + h.length + body.length
        if budget ≤ used' then [(h, body)]
        else (h, body) :: blobChunks rest budget used'

/-- `_context_blob`'s result string for a string-valued file mapping:
`"".join(chunks)` where each chunk is `header + body`. -/
def context_blob (files : List (String × Str)) (budget : Nat) : Str :=
  (List.map (fun c => c.1 ++ c.2) (blobChunks files budget 0)).flatten

/-- The same loop over dynamically-typed file values, as executed on an
arbitrary `context["files"]` dict: reaching a non-string `src` makes
`len(src)` raise `TypeError` (`none`).  The break on `take <= 0` happens
before `src` is touched, exactly as in the source. -/
def blobChunksDyn : List (String × Json) → Nat → Nat → Option Str
  | [], _, _ => some []
  | (rel, src) :: rest, budget, used =>
      let h := headerChars rel
      let tk := budget - (used + h.length)
      if tk = 0 then some []
      else
        match src with
        | .str s =>
            let body := if s.length ≤ tk then s else s.take tk
            let used' := used + h.length + body.length
            if budget ≤ used' then some (h ++ body)
            else
              match blobChunksDyn rest budget used' with
              | none => none
              | some tail => some (h ++ body ++ tail)
        | _ => none

/-- Full `_context_blob(context)` (app.py 407-420) on a dynamically-typed
context: empty result when the context is falsy or has no `files` key; raises
(`none`) when `files` is not a dict (`.items()` fails) or when the loop
reaches a non-string file value. -/
def context_blob_dyn (context : Option (List (String × Json))) (budget : Nat) : Option Str :=
  match context with
  | none => some []
  | some ctx =>
      if ctx.isEmpty then some []
      else
        match lookupKey "files" ctx with
        | none => some []
        | some (.obj files) => blobChunksDyn files budget 0
        | some _ => none

/-! ### Shared text helpers (strip, join, slicing) -/

/-- Whitespace for `str.strip()` / `str.rstrip()` (ASCII whitespace; Python
also strips further Unicode space characters, which none of the claims use). -/
def isPySpace (c : Char) : Bool :=
  c == ' ' || c == '\t' || c == '\n' || c == '\r' || c == Char.ofNat 11 || c == Char.ofNat 12

/-- Python `s.rstrip()`. -/
def rstripPy (s : Str) : Str := (s.reverse.dropWhile isPySpace).reverse

/-- Python `s.strip()`. -/
def stripPy (s : Str) : Str := rstripPy (s.dropWhile isPySpace)

/-- Left-to-right traversal stopping at the first failing element, as a
Python loop or comprehension raises at the first bad element. -/
def mapOpt {α β : Type} (f : α → Option β) : List α → Option (List β)
  | [] => some []
  | x :: xs =>
      match f x with
      | none => none
      | some y =>
          match mapOpt f xs with
          | none => none
          | some ys => some (y :: ys)

/-- Left fold stopping at the first failing step. -/
def foldOpt {α β : Type} (f : β → α → Option β) : β → List α → Option β
  | b, [] => some b
  | b, x :: xs =>
      match f b x with
      | none => none
      | some b2 => foldOpt f b2 xs

/-- `"\n".join([p.get("text", "") for p in parts if p.get("text")])` as used at
app.py 432 and 565.  `none` models a raise: a non-dict part (`p.get` fails) or
a truthy non-string `text` value (`join` gets a non-`str`). -/
def extractText (parts : List Json) : Option Str :=
  match foldOpt (fun (acc : List Str) p =>
      match p with
      | .obj kvs =>
          match lookupKey "text" kvs with
          | some v =>
              if truthy v then
                match v with
                | .str s => some (acc ++ [s])
                | _ => none
              else some acc
          | none => some acc
      | _ => none) [] parts with
  | none => none
  | some texts => some (List.intercalate (chars "\n") texts)

/-- Index of the last occurrence of a character (Python `str.rfind`), if any. -/
def lastIdxOf (c : Char) (t : Str) : Option Nat :=
  (t.reverse.findIdx? (· == c)).map (fun i => t.length - 1 - i)

/-- The robust JSON slice of app.py 437-440: take the substring from the first
brace-open to the last brace-close when both exist in that order, else the
text unchanged. -/
def jsonSlice (t : Str) : Str :=
  match t.findIdx? (· == '\x7b'), lastIdxOf '\x7d' t with
  | some s, some e => if s < e then (t.drop s).take (e + 1 - s) else t
  | _, _ => t

/-! ### JSON-Only Fallback Planner (`_json_only_plan`, app.py 422-450) -/

/-- Every value of the `files` dict is a string. -/
def filesAllStr : List (String × Json) → Bool
  | [] => true
  | (_, .str _) :: rest => filesAllStr rest
  | _ => false

/-- The context shapes on which `_context_blob` cannot raise: no context, an
empty context, no `files` key, or a `files` dict whose values are all strings. -/
def contextOk (context : Option (List (String × Json))) : Bool :=
  match context with
  | none => true
  | some ctx =>
      match lookupKey "files" ctx with
      | none => true
      | some (.obj files) => filesAllStr files
      | some _ => !(!ctx.isEmpty)

/-- The `try` block of `_json_only_plan` (app.py 428-450): extract the text
parts of the response, strip, slice to the outermost braces, parse, and read
a list-valued `actions` field; every failure — a raised transport exception,
a raise inside extraction, empty text, a parse error, a non-dict parse
result (`data.get` raises), or a missing/non-list `actions` field — is
caught, traced as an `error` event, and turned into the empty list.  Returns
the trace events emitted after `json-plan.start` paired with the action
list. -/
def json_plan_try (loads : Str → Option Json) :
    Except String (List Json) → List TraceEv × List Json
  | .error e => ([("step", "json-plan.start"), ("error", e)], [])
  | .ok parts =>
      match extractText parts with
      | none => ([("step", "json-plan.start"), ("error", "exception")], [])
      | some t0 =>
          if (stripPy t0).isEmpty then
            ([("step", "json-plan.start"), ("error", "empty text")], [])
          else
            match loads (jsonSlice (stripPy t0)) with
            | none => ([("step", "json-plan.start"), ("error", "exception")], [])
            | some (.obj kvs) =>
                match (lookupKey "actions" kvs).getD (.arr []) with
                | .arr l => ([("step", "json-plan.start"), ("step", "json-plan.ok")], l)
                | _ => ([("step", "json-plan.start"), ("error", "no actions key")], [])
            | some _ => ([("step", "json-plan.start"), ("error", "exception")], [])

/-- `_json_only_plan(session_id, user_text, context)` (app.py 422-450).
`loads` is the behaviour of `json.loads` (`none` = parse error raises);
`converseResult` is the transport outcome of the `brx.converse` call
(`.error e` = the call raises with message `e`).  The result is the emitted
trace events paired with the returned action list; `none` models an
exception escaping the function - possible only from the `_context_blob`
call, which sits before the `try` block. -/
def json_only_plan (loads : Str → Option Json) (_userText : Str)
    (context : Option (List (String × Json)))
    (converseResult : Except String (List Json)) : Option (List TraceEv × List Json) :=
  match context_blob_dyn context 10000 with
  | none => none
  | some _snapshot => some (json_plan_try loads converseResult)

/-- Whether a value is a list (`isinstance(acts, list)`). -/
def isArr : Json → Bool
  | .arr _ => true
  | _ => false

/-- Whether a value is a dict (so `data.get(...)` works on it). -/
def isObj : Json → Bool
  | .obj _ => true
  | _ => false

/-! ### Minimal-Action Synthesizer (`_synthesize_minimal_action`, app.py 452-465) -/

/-- `s.replace(needle, rep)` for a one-character needle. -/
def replaceChar (needle : Char) (rep : Str) (s : Str) : Str :=
  s.flatMap fun c => if c == needle then rep else [c]

/-- `user_text.replace("<", "&lt;").replace(">", "&gt;")` (app.py 453). -/
def escapeHtml (s : Str) : Str :=
  replaceChar '>' (chars "&gt;") (replaceChar '<' (chars "&lt;") s)

/-- The generated page contents before the interpolated escaped text. -/
def tsxPre : Str :=
  chars "export default function Page() \x7b\n  return (\n    <main className=\"min-h-screen grid place-items-center p-10\">\n      <div className=\"max-w-xl text-center\">\n        <h1 className=\"text-3xl font-bold mb-3\">Applied: "

/-- The generated page contents after the interpolated escaped text. -/
def tsxPost : Str :=
  chars "</h1>\n        <p className=\"text-slate-500\">This is a minimal update because the model did not return actionable steps.</p>\n      </div>\n    </main>\n  );\n\x7d\n"

/-- `_synthesize_minimal_action(user_text)` (app.py 452-465). -/
def synthesize_minimal_action (user_text : Str) : List Json :=
  [Json.obj [("type", .str (chars "update_file")),
             ("path", .str (chars "app/page.tsx")),
             ("contents", .str (tsxPre ++ escapeHtml user_text ++ tsxPost))]]

/-! ### Result Summarizer (`build_assistant_message`, app.py 371-392, with `_peek`) -/

/-- `re.sub(r"\s+", " ", t)`: collapse each maximal whitespace run to one space. -/
def collapseWS (s : Str) : Str :=
  (s.foldl (fun (st : Str × Bool) c =>
      if isPySpace c then (if st.2 then st else (st.1 ++ [' '], true))
      else (st.1 ++ [c], false)) ([], false)).1

/-- `_peek(s)` (app.py 334-337). -/
def peek (s : Str) : Str :=
  if s.isEmpty then []
  else
    let t := collapseWS (stripPy s)
    t.take 60 ++ (if 60 < t.length then ['…'] else [])

/-- Decimal rendering of a count, as Python string interpolation does. -/
def natChars (n : Nat) : Str := chars (toString n)

/-- `", ".join(xs)`. -/
def joinCommaSp (xs : List Str) : Str := List.intercalate (chars ", ") xs

/-- `a["type"]` evaluated on one element of the action list: `none` models the
`KeyError` for a dict without the key, or the `TypeError` for a non-dict
element; on success also keeps the dict for the later `.get` calls. -/
def actionTypeEntry (a : Json) : Option (List (String × Json) × Json) :=
  match a with
  | .obj kvs => (lookupKey "type" kvs).map (fun t => (kvs, t))
  | _ => none

/-- Whether an action element is a dict carrying a `type` key. -/
def hasTypeKey (a : Json) : Bool :=
  match a with
  | .obj kvs => (lookupKey "type" kvs).isSome
  | _ => false

/-- `v == "name"` for a Python comparison of a Json value with a string literal. -/
def jsonIsStr (v : Json) (s : String) : Bool :=
  match v with
  | .str t => t == chars s
  | _ => false

/-- `build_assistant_message(user_text, actions)` (app.py 371-392).
`describe` abstracts `_describe_contents` (app.py 357-369), a total
regex-based scan of a file's contents producing hint phrases; it cannot
raise on a string input, so its output is an arbitrary function parameter.
`none` models a raise: an element without `type` (the four counting sums
subscript every element), a truthy non-string `path` among the first three
touched paths (`", ".join` fails), or a truthy non-string `contents`
(`_describe_contents` calls `.lower()`). -/
def build_assistant_message (describe : Str → List Str) (user_text : Str)
    (actions : List Json) : Option Str :=
  match mapOpt actionTypeEntry actions with
  | none => none
  | some objs =>
      let created := (objs.filter (fun e => jsonIsStr e.2 "create_file")).length
      let updated := (objs.filter (fun e => jsonIsStr e.2 "update_file")).length
      let deleted := (objs.filter (fun e => jsonIsStr e.2 "delete_file")).length
      let ran := (objs.filter (fun e => jsonIsStr e.2 "run_command")).length
      let paths := objs.filterMap (fun e =>
        match lookupKey "path" e.1 with
        | some v => if truthy v then some v else none
        | none => none)
      let insights := foldOpt (fun (acc : List Str) e =>
        if jsonIsStr e.2 "create_file" || jsonIsStr e.2 "update_file" then
          match lookupKey "contents" e.1 with
          | some v =>
              if truthy v then
                match v with
                | .str s => some (acc ++ describe s)
                | _ => none
              else some (acc ++ describe [])
          | none => some (acc ++ describe [])
        else some acc) [] objs
      match insights with
      | none => none
      | some ins =>
          match mapOpt (fun v =>
              match v with
              | .str s => some s
              | _ => none) (paths.take 3) with
          | none => none
          | some paths3 =>
              let touched := joinCommaSp paths3 ++ (if 3 < paths.length then ['…'] else [])
              let head := if 0 < created + updated + deleted + ran
                          then chars "✅ changes applied" else chars "✅ no-op"
              let counts := chars " (" ++ natChars created ++ chars " create, " ++
                natChars updated ++ chars " update, " ++ natChars deleted ++
                chars " delete, " ++ natChars ran ++ chars " run)."
              let detail := if touched.isEmpty then [] else chars " Touched: " ++ touched ++ chars "."
              let hint := if ins.isEmpty then [] else chars " I " ++ joinCommaSp ins ++ chars "."
              let tail := chars " You asked: “" ++ peek user_text ++ chars "”."
              some (head ++ counts ++ detail ++ hint ++ tail)

/-! ### Plan Orchestrator (`plan_endpoint`, app.py 470-552) -/

/-- The fallback chain of app.py 533-540: captured tool actions, else the
JSON-only fallback's actions, else the synthesized minimal action. -/
def chain_actions (captured json_acts : List Json) (user_text : Str) : List Json :=
  let a1 := captured
  let a2 := if a1.isEmpty then json_acts else a1
  if a2.isEmpty then synthesize_minimal_action user_text else a2

/-- The `PlanResponse` payload (app.py 171-173) of a successful return. -/
structure PlanResponseM where
  assistant_message : Str
  actions : List Json

/-- The `HTTPException` raised at app.py 552. -/
structure HTTPErrorM where
  status : Nat
  detail : String

/-- `plan_endpoint` (app.py 470-552) after the model interaction: `body_exc`
is a raised exception anywhere in the try block before the action chain is
assembled (transport failure of both the streaming and the non-streaming
call, etc.); `captured` is the tool capture's final list and `json_acts` the
JSON-fallback result when consulted.  Every uncaught exception - including a
`KeyError` from `build_assistant_message` - becomes an explicit
`HTTPException(500)`; a success is a fully formed `PlanResponse`. -/
def plan_endpoint_model (describe : Str → List Str) (body_exc : Option String)
    (captured json_acts : List Json) (user_text : Str) :
    Except HTTPErrorM PlanResponseM :=
  match body_exc with
  | some e => .error ⟨500, e⟩
  | none =>
      let acts := chain_actions captured json_acts user_text
      match build_assistant_message describe user_text acts with
      | none => .error ⟨500, "exception"⟩
      | some m => .ok ⟨m, acts⟩

/-! ### Chat truncation (`chat_send`, app.py 554-578) -/

/-- The truncation at app.py 566: texts over 220 characters become the first
220 characters, right-stripped, plus a space and an ellipsis. -/
def truncate_assistant (s : Str) : Str :=
  if 220 < s.length then rstripPy (s.take 220) ++ chars " …" else s

/-- The `assistant_output` value built at app.py 565-566 from the model's
response content parts; `none` models a raise inside text extraction. -/
def chat_assistant_output (parts : List Json) : Option Str :=
  match extractText parts with
  | none => none
  | some t0 =>
      let t1 := stripPy t0
      let t2 := if t1.isEmpty then chars "(no text output)" else t1
      some (truncate_assistant t2)

/-! ### Trace Bus (`trace` / `trace_stream`, app.py 273-315) -/

/-- Observable state of one session's trace bus: the registry entry
(`SESSION_QUEUES.get(session_id)`), whether a subscriber's generator is
running, and the events that generator has yielded so far. -/
structure BusState (Ev : Type) where
  queue : Option (List Ev)
  connected : Bool
  delivered : List Ev

/-- The operations touching one session's queue: a producer push (`trace`),
a subscriber opening the stream (`trace_stream`, which attaches to the
existing queue or creates one), one dequeue-and-yield by the generator, and
the generator's teardown (`finally: SESSION_QUEUES.pop(session_id, None)`). -/
inductive BusOp (Ev : Type) where
  | push (e : Ev) : BusOp Ev
  | subscribe : BusOp Ev
  | deliver : BusOp Ev
  | disconnect : BusOp Ev

/-- One step of the trace bus.  `push` get-or-creates the queue and enqueues;
`subscribe` attaches to the existing queue (creating an empty one only if
none exists) and starts a fresh delivery log; `deliver` pops the queue head
to the subscriber when connected; `disconnect` removes the session's queue
from the registry. -/
def stepBus {Ev : Type} (s : BusState Ev) : BusOp Ev → BusState Ev
  | .push e => { s with queue := some (s.queue.getD [] ++ [e]) }
  | .subscribe =>
      if s.connected then s
      else { queue := some (s.queue.getD []), connected := true, delivered := [] }
  | .deliver =>
      if s.connected then
        match s.queue with
        | some (e :: rest) => { s with queue := some rest, delivered := s.delivered ++ [e] }
        | _ => s
      else s
  | .disconnect => { queue := none, connected := false, delivered := s.delivered }

/-- Run a sequence of bus operations. -/
def runBus {Ev : Type} (s : BusState Ev) (ops : List (BusOp Ev)) : BusState Ev :=
  ops.foldl stepBus s

/-! ### Concrete instances used by witnesses and counterexamples -/

/-- A content part whose tool invocation carries the given `actions` list. -/
def partWithActions (l : List Json) : Json :=
  Json.obj [("toolUse", Json.obj [("input", Json.obj [("actions", Json.arr l)])])]

/-- A request carrying both tool-related fields, as `converse` builds it. -/
def reqWithTools : ReqDict :=
  [("modelId", .str (chars "m")), ("messages", .arr []), ("tools", .arr []), ("toolConfig", .obj [])]

/-- A transport that rejects any request carrying a `toolConfig` key with a
validation failure naming `toolConfig`, and accepts requests without it. -/
def fnToolConfigReject (req : ReqDict) : Except PyErr Nat :=
  if req.any (fun kv => kv.1 == "toolConfig")
  then .error (.paramValidation "Parameter validation failed:\nUnknown parameter in input: \"toolConfig\", must be one of: modelId, messages")
  else .ok 0

/-- A transport that rejects any request carrying a `tools` key with a
validation failure naming `tools`, and accepts requests without it. -/
def fnToolsReject (req : ReqDict) : Except PyErr Nat :=
  if req.any (fun kv => kv.1 == "tools")
  then .error (.paramValidation "Parameter validation failed:\nUnknown parameter in input: \"tools\", must be one of: modelId, messages")
  else .ok 7

/-- A captured action list with one well-formed `create_file` action. -/
def capExample : List Json := [Json.obj [("type", Json.str (chars "create_file"))]]

/-! ## Theorems -/

set_option maxRecDepth 65536

/-- `absorb` characterised: it raises exactly on `absorbCrashes` parts, and
otherwise replaces the captured list by the part's qualifying `actions` list
when there is one, leaving it unchanged when there is none. -/
theorem absorbPy_eq (st : List Json) (p : Json) :
    absorbPy st p = if absorbCrashes p then none else some ((qualifyActions p).getD st) := by
  cases p <;> try rfl
  case obj kvs =>
    simp only [absorbPy, absorbCrashes, qualifyActions]
    cases h : lookupKey "toolUse" kvs with
    | none => simp
    | some tu =>
      simp only
      cases htu : truthy tu with
      | false => simp [htu]
      | true =>
        simp only [htu, if_true]
        cases tu <;> simp
        case obj tkvs =>
          cases hi : lookupKey "input" tkvs with
          | none => simp
          | some iv =>
            cases iv <;> simp
            case obj ikvs =>
              cases ha : lookupKey "actions" ikvs with
              | none => simp
              | some av => cases av <;> simp

/-- Claim C2: absorbing a sequence of content parts (when no part makes
`absorb` raise, i.e. when every part is actually observed) leaves the capture
holding exactly the `actions` field of the last qualifying part — a part
qualifies precisely when its `toolUse` entry is a truthy dict whose `input`
is a dict with a list-valued `actions` field — and the initial list when no
part qualifies, so non-qualifying parts leave the capture unchanged and later
qualifying parts overwrite earlier ones with no merging. -/
theorem tool_capture_last_wins (parts : List Json) (st r : List Json)
    (h : absorbAll st parts = some r) :
    r = (lastQualified parts).getD st := by
  induction parts generalizing st with
  | nil =>
    simp only [absorbAll, Option.some.injEq] at h
    simp [lastQualified, h]
  | cons p ps ih =>
    rw [absorbAll, absorbPy_eq] at h
    by_cases hc : absorbCrashes p
    · simp [hc] at h
    · simp only [hc, if_false, Bool.false_eq_true] at h
      have hr := ih _ h
      rw [lastQualified]
      cases hl : lastQualified ps with
      | some l => simpa [hl] using hr
      | none => simpa [hl] using hr

/-- Witness for C2: two qualifying parts separated by a text part; the
captured list is the second part's `actions`. -/
theorem tool_capture_last_wins_witness :
    ([Json.num 2, Json.num 3] : List Json) =
      (lastQualified [partWithActions [Json.num 1], Json.obj [("text", Json.str (chars "x"))],
        partWithActions [Json.num 2, Json.num 3]]).getD [] :=
  tool_capture_last_wins _ [] _ (by rfl)

/-- Counterexample for C5: a parameter-validation failure naming only the
`toolConfig` field does not trigger the tools-stripping resubmission — the
gateway propagates it unchanged even though resubmitting without the field
would have succeeded. -/
theorem gateway_retry_cex :
    retry_without_tools_if_needed fnToolConfigReject reqWithTools
      = .error (.paramValidation "Parameter validation failed:\nUnknown parameter in input: \"toolConfig\", must be one of: modelId, messages")
    ∧ fnToolConfigReject (strip_tools reqWithTools) = .ok 0 := by
  constructor
  · rfl
  · rfl

/-- Claim C5 (amended): the gateway resubmits exactly once, with both the
`tools` and `toolConfig` fields removed, precisely when the transport raises
a parameter-validation failure whose message names the `tools` field
(`Unknown parameter in input: "tools"`, double- or single-quoted); the
resubmission's outcome is returned as-is (no second retry), and any other
validation failure, any other exception, and any success propagate
unchanged. -/
theorem gateway_retry_amended {α : Type} (fn : ReqDict → Except PyErr α) (req : ReqDict) :
    (∀ r, fn req = .ok r → retry_without_tools_if_needed fn req = .ok r)
    ∧ (∀ m, fn req = .error (.paramValidation m) → names_tools_param m = true →
        retry_without_tools_if_needed fn req = fn (strip_tools req))
    ∧ (∀ m, fn req = .error (.paramValidation m) → names_tools_param m = false →
        retry_without_tools_if_needed fn req = .error (.paramValidation m))
    ∧ (∀ m, fn req = .error (.other m) → retry_without_tools_if_needed fn req = .error (.other m))
    ∧ (∀ kv, kv ∈ strip_tools req → kv.1 ≠ "tools" ∧ kv.1 ≠ "toolConfig") := by
  refine ⟨?_, ?_, ?_, ?_, ?_⟩
  · intro r h; rw [retry_without_tools_if_needed, h]
  · intro m h ht; rw [retry_without_tools_if_needed, h]; simp [ht]
  · intro m h ht; rw [retry_without_tools_if_needed, h]; simp [ht]
  · intro m h; rw [retry_without_tools_if_needed, h]
  · intro kv hkv
    rw [strip_tools, List.mem_filter] at hkv
    have h2 := hkv.2
    simp only [Bool.and_eq_true, bne_iff_ne, ne_eq] at h2
    exact h2

/-- Witness for C5: a transport that rejects `tools` by name is retried with
both fields stripped and then succeeds. -/
theorem gateway_retry_amended_witness :
    retry_without_tools_if_needed fnToolsReject reqWithTools = .ok 7 := by
  have h := (gateway_retry_amended fnToolsReject reqWithTools).2.1
    "Parameter validation failed:\nUnknown parameter in input: \"tools\", must be one of: modelId, messages"
    (by rfl) (by rfl)
  rw [h]; rfl

/-- Characters surviving a single-character replacement come from the
replacement string or are original characters distinct from the needle. -/
theorem mem_replaceChar {c needle : Char} {rep s : Str}
    (h : c ∈ replaceChar needle rep s) : c ∈ rep ∨ (c ∈ s ∧ c ≠ needle) := by
  rw [replaceChar, List.mem_flatMap] at h
  obtain ⟨x, hx, hmem⟩ := h
  by_cases hxc : x = needle
  · subst hxc; simp only [beq_self_eq_true, if_true] at hmem; exact Or.inl hmem
  · simp only [beq_iff_eq, hxc, if_false] at hmem
    rw [List.mem_singleton] at hmem
    subst hmem
    exact Or.inr ⟨hx, hxc⟩

/-- Claim C8: for every user text, the synthesizer returns exactly one
action, an `update_file` on the fixed path `app/page.tsx` whose contents are
the fixed page template with the HTML-escaped user text interpolated; the
escaped text contains no raw `<` or `>`, and the function is total, so it
cannot fail. -/
theorem synthesize_minimal_spec (u : Str) :
    synthesize_minimal_action u =
      [Json.obj [("type", Json.str (chars "update_file")),
                 ("path", Json.str (chars "app/page.tsx")),
                 ("contents", Json.str (tsxPre ++ escapeHtml u ++ tsxPost))]]
    ∧ (synthesize_minimal_action u).length = 1
    ∧ '<' ∉ escapeHtml u ∧ '>' ∉ escapeHtml u := by
  refine ⟨rfl, rfl, ?_, ?_⟩
  · intro hmem
    rcases mem_replaceChar hmem with h | ⟨h2, _⟩
    · exact absurd h (by decide)
    · rcases mem_replaceChar h2 with h3 | ⟨_, hne⟩
      · exact absurd h3 (by decide)
      · exact hne rfl
  · intro hmem
    rcases mem_replaceChar hmem with h | ⟨_, hne⟩
    · exact absurd h (by decide)
    · exact hne rfl

/-- Witness for C8 at a concrete input containing HTML-significant characters. -/
theorem synthesize_minimal_spec_witness :
    (synthesize_minimal_action (chars "a<b>c")).length = 1 ∧ '<' ∉ escapeHtml (chars "a<b>c") :=
  ⟨(synthesize_minimal_spec (chars "a<b>c")).2.1, (synthesize_minimal_spec (chars "a<b>c")).2.2.1⟩

/-- Counterexample for C9: a 221-character model text yields an
`assistant_output` of 222 characters — the returned string exceeds the
claimed 220-character limit. -/
theorem chat_truncation_cex :
    (chat_assistant_output [Json.obj [("text", Json.str (List.replicate 221 'a'))]]).map List.length
      = some 222 ∧ 220 < (222 : Nat) := by
  constructor
  · rfl
  · decide

/-- Right-stripping never lengthens a string. -/
theorem rstripPy_length_le (s : Str) : (rstripPy s).length ≤ s.length := by
  rw [rstripPy, List.length_reverse]
  calc (s.reverse.dropWhile isPySpace).length ≤ s.reverse.length :=
        (List.dropWhile_sublist _).length_le
    _ = s.length := List.length_reverse _

/-- The truncated assistant text never exceeds 222 characters. -/
theorem truncate_assistant_length_le (s : Str) : (truncate_assistant s).length ≤ 222 := by
  rw [truncate_assistant]
  split
  · rw [List.length_append]
    have h1 := rstripPy_length_le (s.take 220)
    have h2 : (s.take 220).length ≤ 220 := by
      rw [List.length_take]; omega
    have h3 : (chars " …").length = 2 := rfl
    omega
  · rename_i h
    rw [Nat.not_lt] at h
    omega

/-- Claim C9 (amended): texts of at most 220 characters are returned
unchanged; longer texts are cut to their first 220 characters,
right-stripped, with a space and an ellipsis appended — so the returned
`assistant_output` can be up to 222 characters long (exceeding 220 by up to
two), but never more. -/
theorem chat_truncation_amended (parts : List Json) (s t : Str) :
    (s.length ≤ 220 → truncate_assistant s = s)
    ∧ (220 < s.length → truncate_assistant s = rstripPy (s.take 220) ++ chars " …")
    ∧ (chat_assistant_output parts = some t → t.length ≤ 222) := by
  refine ⟨?_, ?_, ?_⟩
  · intro h; rw [truncate_assistant, if_neg (by omega)]
  · intro h; rw [truncate_assistant, if_pos h]
  · intro h
    rw [chat_assistant_output] at h
    cases he : extractText parts with
    | none => rw [he] at h; cases h
    | some t0 =>
      rw [he] at h
      simp only [Option.some.injEq] at h
      subst h
      exact truncate_assistant_length_le _

/-- Witness for C9: a short text passes unchanged, a 300-character text is
truncated by the amended formula, and a concrete output obeys the 222 bound. -/
theorem chat_truncation_amended_witness :
    truncate_assistant (List.replicate 10 'a') = List.replicate 10 'a'
    ∧ truncate_assistant (List.replicate 300 'a') =
        rstripPy ((List.replicate 300 'a').take 220) ++ chars " …"
    ∧ (chars "(no text output)").length ≤ 222 := by
  refine ⟨(chat_truncation_amended [] (List.replicate 10 'a') []).1 (by decide),
          (chat_truncation_amended [] (List.replicate 300 'a') []).2.1 (by decide),
          (chat_truncation_amended [Json.obj []] [] (chars "(no text output)")).2.2 (by rfl)⟩

/-- The running total `used` plus the length contributed by the remaining
chunks never exceeds the budget. -/
theorem blobChunks_len_le (files : List (String × Str)) (budget used : Nat) (h : used ≤ budget) :
    used + ((blobChunks files budget used).map (fun c => c.1.length + c.2.length)).sum ≤ budget := by
  induction files generalizing used with
  | nil => simpa [blobChunks] using h
  | cons f rest ih =>
    obtain ⟨rel, src⟩ := f
    simp only [blobChunks]
    by_cases h0 : budget - (used + (headerChars rel).length) = 0
    · simp [h0, h]
    · rw [if_neg h0]
      set tk := budget - (used + (headerChars rel).length) with htk
      have hbody : (if src.length ≤ tk then src else src.take tk).length ≤ tk := by
        split
        · rename_i hc; exact hc
        · rw [List.length_take]; omega
      set body := if src.length ≤ tk then src else src.take tk with hbodydef
      by_cases h1 : budget ≤ used + (headerChars rel).length + body.length
      · rw [if_pos h1]
        simp only [List.map_cons, List.map_nil, List.sum_cons, List.sum_nil]
        omega
      · rw [if_neg h1]
        have ih2 := ih (used + (headerChars rel).length + body.length) (by omega)
        simp only [List.map_cons, List.sum_cons]
        omega

/-- The snapshot string never exceeds the character budget. -/
theorem context_blob_length_le (files : List (String × Str)) (budget : Nat) :
    (context_blob files budget).length ≤ budget := by
  have h := blobChunks_len_le files budget 0 (Nat.zero_le _)
  rw [context_blob, List.length_flatten, List.map_map]
  have he : (List.length ∘ fun c : Str × Str => c.1 ++ c.2)
      = fun c : Str × Str => c.1.length + c.2.length := by
    funext c
    simp [Function.comp, List.length_append]
  rw [he]
  simpa using h

/-- Chunk-to-file alignment: the emitted chunks correspond to an initial
segment of the file list, each chunk carries that file's header, each body is
a prefix of that file's contents, and every chunk except possibly the last
carries the full contents. -/
theorem blobChunks_align (files : List (String × Str)) (budget used : Nat) :
    (blobChunks files budget used).length ≤ files.length
    ∧ (∀ i, i < (blobChunks files budget used).length →
        ((blobChunks files budget used).getD i ([], [])).1 = headerChars ((files.getD i ("", [])).1)
        ∧ ((blobChunks files budget used).getD i ([], [])).2 <+: (files.getD i ("", [])).2)
    ∧ (∀ i, i + 1 < (blobChunks files budget used).length →
        ((blobChunks files budget used).getD i ([], [])).2 = (files.getD i ("", [])).2) := by
  induction files generalizing used with
  | nil => simp [blobChunks]
  | cons f rest ih =>
    obtain ⟨rel, src⟩ := f
    simp only [blobChunks]
    by_cases h0 : budget - (used + (headerChars rel).length) = 0
    · simp [h0]
    · rw [if_neg h0]
      set tk := budget - (used + (headerChars rel).length) with htk
      have hprefix : (if src.length ≤ tk then src else src.take tk) <+: src := by
        split
        · exact List.prefix_refl _
        · exact List.take_prefix _ _
      set body := if src.length ≤ tk then src else src.take tk with hbodydef
      by_cases h1 : budget ≤ used + (headerChars rel).length + body.length
      · rw [if_pos h1]
        refine ⟨by simp, ?_, ?_⟩
        · intro i hi
          have hz : i = 0 := by simpa [Nat.lt_one_iff] using hi
          subst hz
          exact ⟨rfl, hprefix⟩
        · intro i hi
          simp only [List.length_cons, List.length_nil] at hi
          omega
      · rw [if_neg h1]
        have hfull : body = src := by
          by_cases hle : src.length ≤ tk
          · rw [hbodydef, if_pos hle]
          · exfalso
            apply h1
            have hlen : body.length = tk := by
              rw [hbodydef, if_neg hle, List.length_take]
              omega
            omega
        have ihs := ih (used + (headerChars rel).length + body.length)
        refine ⟨?_, ?_, ?_⟩
        · simpa using Nat.succ_le_succ ihs.1
        · intro i hi
          cases i with
          | zero => exact ⟨by simp, by simpa using hprefix⟩
          | succ j =>
            have hj : j < (blobChunks rest budget (used + (headerChars rel).length + body.length)).length := by
              simpa using hi
            simpa using ihs.2.1 j hj
        · intro i hi
          cases i with
          | zero => simpa using hfull
          | succ j =>
            have hj : j + 1 < (blobChunks rest budget (used + (headerChars rel).length + body.length)).length := by
              simpa using hi
            simpa using ihs.2.2 j hj

/-- Claim C6: for every file mapping and budget, the snapshot's total length
(headers plus bodies) never exceeds the budget; the emitted chunks come from
an initial segment of the mapping in iteration order (files after it are
omitted entirely), each included file keeps its own header and a prefix of
its body, and only the last included file's body can be truncated — every
earlier chunk carries the file's full contents. -/
theorem context_blob_budget_spec (files : List (String × Str)) (budget : Nat) :
    (context_blob files budget).length ≤ budget
    ∧ (blobChunks files budget 0).length ≤ files.length
    ∧ (∀ i, i < (blobChunks files budget 0).length →
        ((blobChunks files budget 0).getD i ([], [])).1 = headerChars ((files.getD i ("", [])).1)
        ∧ ((blobChunks files budget 0).getD i ([], [])).2 <+: (files.getD i ("", [])).2)
    ∧ (∀ i, i + 1 < (blobChunks files budget 0).length →
        ((blobChunks files budget 0).getD i ([], [])).2 = (files.getD i ("", [])).2) :=
  ⟨context_blob_length_le files budget, (blobChunks_align files budget 0).1,
   (blobChunks_align files budget 0).2.1, (blobChunks_align files budget 0).2.2⟩

/-- Witness for C6 at a concrete mapping and budget where the second file is
omitted. -/
theorem context_blob_budget_spec_witness :
    (context_blob [("a.txt", chars "hello"), ("b.txt", chars "world")] 30).length ≤ 30
    ∧ ((blobChunks [("a.txt", chars "hello"), ("b.txt", chars "world")] 30 0).getD 0 ([], [])).1
        = headerChars "a.txt" :=
  ⟨(context_blob_budget_spec [("a.txt", chars "hello"), ("b.txt", chars "world")] 30).1,
   (((context_blob_budget_spec [("a.txt", chars "hello"), ("b.txt", chars "world")] 30).2.2.1)
      0 (by decide)).1⟩

/-- Below-budget runs include every file whole. -/
theorem blobChunks_all (files : List (String × Str)) (budget used : Nat)
    (h : used + (files.map (fun f => (headerChars f.1).length + f.2.length)).sum < budget) :
    blobChunks files budget used = files.map (fun f => (headerChars f.1, f.2)) := by
  induction files generalizing used with
  | nil => simp [blobChunks]
  | cons f rest ih =>
    obtain ⟨rel, src⟩ := f
    simp only [List.map_cons, List.sum_cons] at h
    simp only [blobChunks, List.map_cons]
    have h0 : ¬ (budget - (used + (headerChars rel).length) = 0) := by omega
    rw [if_neg h0]
    have hle : src.length ≤ budget - (used + (headerChars rel).length) := by omega
    rw [if_pos hle]
    have h1 : ¬ (budget ≤ used + (headerChars rel).length + src.length) := by omega
    rw [if_neg h1]
    rw [ih (used + (headerChars rel).length + src.length) (by omega)]

/-- Claim C7: when the mapping's total size (all headers plus all bodies) is
smaller than the budget, the snapshot is exactly the concatenation of every
file's header followed by its full, untruncated body. -/
theorem context_blob_roundtrip (files : List (String × Str)) (budget : Nat)
    (h : (files.map (fun f => (headerChars f.1).length + f.2.length)).sum < budget) :
    context_blob files budget = (files.map (fun f => headerChars f.1 ++ f.2)).flatten := by
  rw [context_blob, blobChunks_all files budget 0 (by omega), List.map_map]
  rfl

/-- Witness for C7 at a concrete below-budget mapping. -/
theorem context_blob_roundtrip_witness :
    context_blob [("a", chars "xy")] 100
      = ([("a", chars "xy")].map (fun f => headerChars f.1 ++ f.2)).flatten :=
  context_blob_roundtrip [("a", chars "xy")] 100 (by decide)

/-- Counterexample for C3: a context whose `files` mapping holds a non-string
value makes the planner raise (`len(src)` fails inside `_context_blob`, which
runs before the `try` block), contradicting "never throws". -/
theorem json_only_plan_cex :
    json_only_plan (fun _ => none) [] (some [("files", Json.obj [("a", Json.num 1)])])
      (Except.ok []) = none := by
  rfl

/-- Unfolding of the dynamic snapshot loop on a string-valued head file. -/
theorem blobChunksDyn_cons_str (rel : String) (s : Str) (rest : List (String × Json))
    (budget used : Nat) :
    blobChunksDyn ((rel, Json.str s) :: rest) budget used =
      (if budget - (used + (headerChars rel).length) = 0 then some []
       else
        (if budget ≤ used + (headerChars rel).length +
              (if s.length ≤ budget - (used + (headerChars rel).length) then s
               else s.take (budget - (used + (headerChars rel).length))).length
         then some (headerChars rel ++ (if s.length ≤ budget - (used + (headerChars rel).length)
                      then s else s.take (budget - (used + (headerChars rel).length))))
         else match blobChunksDyn rest budget (used + (headerChars rel).length +
                  (if s.length ≤ budget - (used + (headerChars rel).length) then s
                   else s.take (budget - (used + (headerChars rel).length))).length) with
              | none => none
              | some tail =>
                  some (headerChars rel
                    ++ (if s.length ≤ budget - (used + (headerChars rel).length) then s
                        else s.take (budget - (used + (headerChars rel).length))) ++ tail))) :=
  rfl

/-- The dynamic snapshot loop cannot raise when every file value is a string. -/
theorem blobChunksDyn_ok (files : List (String × Json)) (budget used : Nat)
    (h : filesAllStr files = true) : (blobChunksDyn files budget used).isSome = true := by
  induction files generalizing used with
  | nil => rfl
  | cons f rest ih =>
    obtain ⟨rel, v⟩ := f
    cases v with
    | str s =>
      rw [blobChunksDyn_cons_str]
      by_cases h0 : budget - (used + (headerChars rel).length) = 0
      · rw [if_pos h0]; rfl
      · rw [if_neg h0]
        by_cases h1 : budget ≤ used + (headerChars rel).length +
            (if s.length ≤ budget - (used + (headerChars rel).length) then s
             else s.take (budget - (used + (headerChars rel).length))).length
        · rw [if_pos h1]; rfl
        · rw [if_neg h1]
          have hrec := ih (used + (headerChars rel).length +
            (if s.length ≤ budget - (used + (headerChars rel).length) then s
             else s.take (budget - (used + (headerChars rel).length))).length) h
          cases hr : blobChunksDyn rest budget (used + (headerChars rel).length +
            (if s.length ≤ budget - (used + (headerChars rel).length) then s
             else s.take (budget - (used + (headerChars rel).length))).length) with
          | none => rw [hr] at hrec; simp at hrec
          | some tail => rfl
    | null => exact absurd h (by intro hx; exact Bool.false_ne_true hx)
    | bool b => exact absurd h (by intro hx; exact Bool.false_ne_true hx)
    | num n => exact absurd h (by intro hx; exact Bool.false_ne_true hx)
    | arr l => exact absurd h (by intro hx; exact Bool.false_ne_true hx)
    | obj kvs => exact absurd h (by intro hx; exact Bool.false_ne_true hx)

/-- `_context_blob` cannot raise on a well-formed context. -/
theorem context_blob_dyn_ok (context : Option (List (String × Json))) (budget : Nat)
    (h : contextOk context = true) : (context_blob_dyn context budget).isSome = true := by
  cases context with
  | none => rfl
  | some ctx =>
    simp only [context_blob_dyn]
    by_cases he : ctx.isEmpty
    · rw [if_pos he]; rfl
    · rw [if_neg he]
      cases hl : lookupKey "files" ctx with
      | none => rfl
      | some v =>
        simp only [contextOk, hl] at h
        cases v with
        | obj files => exact blobChunksDyn_ok files budget 0 h
        | null => simp [he] at h
        | bool b => simp [he] at h
        | num n => simp [he] at h
        | str s => simp [he] at h
        | arr l => simp [he] at h

/-- Claim C3 (amended): provided the context's `files` field, when present in
a non-empty context, is a mapping whose values are all strings, the fallback
planner never throws, and each outcome is pinned exactly: a transport
exception, a raise inside text extraction, empty model text, a parse
failure, a non-dict parse result, or an `actions` field that is present but
not a list each emit a trace `error` event and return the empty action
sequence; a parsed dict with no `actions` field is not an error —
`data.get("actions", [])` defaults to the empty list, so the planner traces
`json-plan.ok` with no error event and returns the empty list — and a
list-valued `actions` field is returned as-is under `json-plan.ok`.
Without the proviso the snapshot construction — which runs before the `try`
block — raises and the exception escapes. -/
theorem json_only_plan_amended (loads : Str → Option Json) (u : Str)
    (context : Option (List (String × Json))) (res : Except String (List Json))
    (h : contextOk context = true) :
    (json_only_plan loads u context res).isSome = true
    ∧ (∀ e, res = .error e →
        json_only_plan loads u context res
          = some ([("step", "json-plan.start"), ("error", e)], []))
    ∧ (∀ parts, res = .ok parts → extractText parts = none →
        json_only_plan loads u context res
          = some ([("step", "json-plan.start"), ("error", "exception")], []))
    ∧ (∀ parts t0, res = .ok parts → extractText parts = some t0 →
        (stripPy t0).isEmpty = true →
        json_only_plan loads u context res
          = some ([("step", "json-plan.start"), ("error", "empty text")], []))
    ∧ (∀ parts t0, res = .ok parts → extractText parts = some t0 →
        (stripPy t0).isEmpty = false → loads (jsonSlice (stripPy t0)) = none →
        json_only_plan loads u context res
          = some ([("step", "json-plan.start"), ("error", "exception")], []))
    ∧ (∀ parts t0 d, res = .ok parts → extractText parts = some t0 →
        (stripPy t0).isEmpty = false → loads (jsonSlice (stripPy t0)) = some d →
        isObj d = false →
        json_only_plan loads u context res
          = some ([("step", "json-plan.start"), ("error", "exception")], []))
    ∧ (∀ parts t0 kvs v, res = .ok parts → extractText parts = some t0 →
        (stripPy t0).isEmpty = false → loads (jsonSlice (stripPy t0)) = some (.obj kvs) →
        lookupKey "actions" kvs = some v → isArr v = false →
        json_only_plan loads u context res
          = some ([("step", "json-plan.start"), ("error", "no actions key")], []))
    ∧ (∀ parts t0 kvs, res = .ok parts → extractText parts = some t0 →
        (stripPy t0).isEmpty = false → loads (jsonSlice (stripPy t0)) = some (.obj kvs) →
        lookupKey "actions" kvs = none →
        json_only_plan loads u context res
          = some ([("step", "json-plan.start"), ("step", "json-plan.ok")], []))
    ∧ (∀ parts t0 kvs l, res = .ok parts → extractText parts = some t0 →
        (stripPy t0).isEmpty = false → loads (jsonSlice (stripPy t0)) = some (.obj kvs) →
        lookupKey "actions" kvs = some (.arr l) →
        json_only_plan loads u context res
          = some ([("step", "json-plan.start"), ("step", "json-plan.ok")], l)) := by
  obtain ⟨snap, hsnap⟩ : ∃ s, context_blob_dyn context 10000 = some s := by
    have hcb := context_blob_dyn_ok context 10000 h
    cases hx : context_blob_dyn context 10000 with
    | none => rw [hx] at hcb; simp at hcb
    | some s => exact ⟨s, rfl⟩
  have hplan : json_only_plan loads u context res = some (json_plan_try loads res) := by
    unfold json_only_plan
    rw [hsnap]
  refine ⟨?_, ?_, ?_, ?_, ?_, ?_, ?_, ?_, ?_⟩
  · rw [hplan]; rfl
  · intro e hres
    subst hres
    rw [hplan]
    rfl
  · intro parts hres hex
    subst hres
    rw [hplan]
    simp [json_plan_try, hex]
  · intro parts t0 hres hex hemp
    subst hres
    rw [hplan]
    simp [json_plan_try, hex, hemp]
  · intro parts t0 hres hex hemp hld
    subst hres
    rw [hplan]
    simp [json_plan_try, hex, hemp, hld]
  · intro parts t0 d hres hex hemp hld hobj
    subst hres
    rw [hplan]
    cases d with
    | obj kvs => simp [isObj] at hobj
    | null => simp [json_plan_try, hex, hemp, hld]
    | bool b => simp [json_plan_try, hex, hemp, hld]
    | num n => simp [json_plan_try, hex, hemp, hld]
    | str s => simp [json_plan_try, hex, hemp, hld]
    | arr l => simp [json_plan_try, hex, hemp, hld]
  · intro parts t0 kvs v hres hex hemp hld hlk hv
    subst hres
    rw [hplan]
    cases v with
    | arr l => simp [isArr] at hv
    | null => simp [json_plan_try, hex, hemp, hld, hlk]
    | bool b => simp [json_plan_try, hex, hemp, hld, hlk]
    | num n => simp [json_plan_try, hex, hemp, hld, hlk]
    | str s => simp [json_plan_try, hex, hemp, hld, hlk]
    | obj kvs2 => simp [json_plan_try, hex, hemp, hld, hlk]
  · intro parts t0 kvs hres hex hemp hld hlk
    subst hres
    rw [hplan]
    simp [json_plan_try, hex, hemp, hld, hlk]
  · intro parts t0 kvs l hres hex hemp hld hlk
    subst hres
    rw [hplan]
    simp [json_plan_try, hex, hemp, hld, hlk]

/-- Witness for C3: a parsed dict without an `actions` field takes the
success path (`json-plan.ok`, empty list, no error event), and a transport
failure returns the empty list with an error event instead of raising. -/
theorem json_only_plan_amended_witness :
    json_only_plan (fun _ => some (Json.obj [])) []
        none (Except.ok [Json.obj [("text", Json.str (chars "x"))]])
      = some ([(("step", "json-plan.start") : TraceEv), ("step", "json-plan.ok")], [])
    ∧ json_only_plan (fun _ => some (Json.obj [])) [] none (Except.error "boom")
      = some ([(("step", "json-plan.start") : TraceEv), ("error", "boom")], []) :=
  ⟨(json_only_plan_amended (fun _ => some (Json.obj [])) [] none
      (Except.ok [Json.obj [("text", Json.str (chars "x"))]]) (by rfl)).2.2.2.2.2.2.2.1
      [Json.obj [("text", Json.str (chars "x"))]] (chars "x") [] rfl (by rfl) (by rfl)
      (by rfl) (by rfl),
   (json_only_plan_amended (fun _ => some (Json.obj [])) [] none
      (Except.error "boom") (by rfl)).2.1 "boom" rfl⟩

/-- Counterexample for C4: an event pushed before any subscriber connects is
delivered to the first subscriber — the producer's push creates the session
queue, the subscription attaches to it, and the event is replayed. -/
theorem trace_bus_cex :
    (runBus (⟨none, false, []⟩ : BusState Nat) [.push 1, .subscribe, .deliver]).delivered
      = [1] := by
  rfl

/-- Splitting a run of bus operations. -/
theorem runBus_append {Ev : Type} (s : BusState Ev) (l1 l2 : List (BusOp Ev)) :
    runBus s (l1 ++ l2) = runBus (runBus s l1) l2 := by
  simp [runBus, List.foldl_append]

/-- Delivering `k` times from a connected subscriber consumes the first `k`
queued events in order. -/
theorem runBus_deliver {Ev : Type} (q d : List Ev) (k : Nat) :
    runBus ⟨some q, true, d⟩ (List.replicate k .deliver)
      = ⟨some (q.drop k), true, d ++ q.take k⟩ := by
  induction k generalizing q d with
  | zero => simp [runBus]
  | succ n ih =>
    rw [List.replicate_succ]
    cases q with
    | nil =>
      rw [runBus, List.foldl_cons]
      have h2 := ih ([] : List Ev) d
      rw [runBus] at h2
      simp only [List.drop_nil, List.take_nil, List.append_nil] at h2 ⊢
      exact h2
    | cons e rest =>
      rw [runBus, List.foldl_cons]
      have h2 := ih rest (d ++ [e])
      rw [runBus] at h2
      have h3 : stepBus (⟨some (e :: rest), true, d⟩ : BusState Ev) .deliver
          = ⟨some rest, true, d ++ [e]⟩ := rfl
      rw [h3, h2]
      simp [List.take_succ_cons, List.drop_succ_cons, List.append_assoc]

/-- Pushes onto an existing queue append in order and touch nothing else. -/
theorem runBus_pushes {Ev : Type} (q d : List Ev) (c : Bool) (p : List Ev) :
    runBus ⟨some q, c, d⟩ (p.map .push) = ⟨some (q ++ p), c, d⟩ := by
  induction p generalizing q with
  | nil => simp [runBus]
  | cons e p' ih =>
    rw [List.map_cons, runBus, List.foldl_cons]
    have h1 : stepBus (⟨some q, c, d⟩ : BusState Ev) (.push e) = ⟨some (q ++ [e]), c, d⟩ := rfl
    rw [h1]
    have h2 := ih (q ++ [e])
    rw [runBus] at h2
    rw [h2]
    simp

/-- Claim C4 (amended): on subscriber teardown the session's queue is removed
from the registry; but events pushed while no subscriber is connected are
buffered (the producer creates the queue), a new subscription attaches to
that existing queue, and the buffered events — including any pushed after a
previous teardown or before the first connect — are delivered to the next
subscriber in FIFO order rather than dropped. -/
theorem trace_bus_amended {Ev : Type} (s : BusState Ev) (p : List Ev) (k : Nat) :
    (stepBus s .disconnect).queue = none
    ∧ (runBus s ([.disconnect] ++ p.map .push ++ [.subscribe]
          ++ List.replicate k .deliver)).delivered = p.take k := by
  constructor
  · rfl
  · obtain ⟨q, c, d⟩ := s
    rw [runBus_append, runBus_append, runBus_append]
    have h1 : runBus (⟨q, c, d⟩ : BusState Ev) [.disconnect] = ⟨none, false, d⟩ := rfl
    rw [h1]
    cases p with
    | nil =>
      simp only [List.map_nil]
      have h2 : runBus (⟨none, false, d⟩ : BusState Ev) ([] : List (BusOp Ev))
          = ⟨none, false, d⟩ := rfl
      have h3 : runBus (⟨none, false, d⟩ : BusState Ev) [.subscribe] = ⟨some [], true, []⟩ := rfl
      rw [h2, h3, runBus_deliver]
      simp
    | cons e p' =>
      rw [List.map_cons]
      have h2 : runBus (⟨none, false, d⟩ : BusState Ev) (BusOp.push e :: p'.map .push)
          = ⟨some ([e] ++ p'), false, d⟩ := by
        rw [runBus, List.foldl_cons]
        have hstep : stepBus (⟨none, false, d⟩ : BusState Ev) (.push e)
            = ⟨some [e], false, d⟩ := rfl
        rw [hstep]
        have hp := runBus_pushes ([e] : List Ev) d false p'
        rw [runBus] at hp
        exact hp
      rw [h2]
      have h3 : runBus (⟨some ([e] ++ p'), false, d⟩ : BusState Ev) [.subscribe]
          = ⟨some ([e] ++ p'), true, []⟩ := rfl
      rw [h3, runBus_deliver]
      simp

/-- A single missing-`type` element poisons the whole traversal. -/
theorem mapOpt_entry_none (l : List Json) (a : Json) (ha : a ∈ l)
    (hf : actionTypeEntry a = none) : mapOpt actionTypeEntry l = none := by
  induction l with
  | nil => cases ha
  | cons x xs ih =>
    rw [mapOpt]
    rcases List.mem_cons.mp ha with rfl | hmem
    · rw [hf]
    · cases hx : actionTypeEntry x with
      | none => rfl
      | some b => rw [ih hmem]

/-- Claim C10: the summarizer subscripts `a["type"]` on every element while
counting, so an action list containing any element without a `type` key (or
a non-dict element) makes it raise instead of returning a summary — it
produces a summary string only under the precondition that every action
carries `type`. -/
theorem build_assistant_message_needs_type (describe : Str → List Str) (u : Str)
    (actions : List Json) (a : Json) (ha : a ∈ actions) (hty : hasTypeKey a = false) :
    build_assistant_message describe u actions = none := by
  have hentry : actionTypeEntry a = none := by
    cases a with
    | obj kvs =>
      simp only [hasTypeKey] at hty
      cases hl : lookupKey "type" kvs with
      | none => simp [actionTypeEntry, hl]
      | some t => rw [hl] at hty; simp at hty
    | null => rfl
    | bool b => rfl
    | num n => rfl
    | str s => rfl
    | arr l => rfl
  rw [build_assistant_message, mapOpt_entry_none actions a ha hentry]

/-- Witness for C10: a one-element list whose dict lacks `type`. -/
theorem build_assistant_message_needs_type_witness :
    build_assistant_message (fun _ => []) [] [Json.obj []] = none :=
  build_assistant_message_needs_type (fun _ => []) [] [Json.obj []] (Json.obj [])
    (by simp) (by rfl)

/-- The fallback chain can never produce an empty action list: the
synthesizer terminates it with exactly one action. -/
theorem chain_actions_ne_nil (captured json_acts : List Json) (u : Str) :
    chain_actions captured json_acts u ≠ [] := by
  by_cases h1 : captured.isEmpty = true
  · by_cases h2 : json_acts.isEmpty = true
    · simp [chain_actions, h1, h2, synthesize_minimal_action]
    · simp only [chain_actions]
      rw [if_pos h1, if_neg h2]
      intro heq
      exact h2 (by simp [heq])
  · simp only [chain_actions]
    rw [if_neg h1, if_neg h1]
    intro heq
    exact h1 (by simp [heq])

/-- Claim C1: the plan endpoint either returns a fully formed `PlanResponse`
whose action list is the fallback chain's result — always non-empty — or
raises an explicit HTTP 500 service error (when the model interaction or the
summarizer raises); no partial or malformed response exists, the result type
admitting only those two outcomes. -/
theorem plan_endpoint_service (describe : Str → List Str) (body_exc : Option String)
    (captured json_acts : List Json) (u : Str) :
    (∀ r, plan_endpoint_model describe body_exc captured json_acts u = .ok r →
        r.actions = chain_actions captured json_acts u ∧ r.actions ≠ [])
    ∧ (∀ e, plan_endpoint_model describe body_exc captured json_acts u = .error e →
        e.status = 500) := by
  cases body_exc with
  | some e =>
    refine ⟨?_, ?_⟩
    · intro r hr
      simp only [plan_endpoint_model] at hr
      cases hr
    · intro e' he
      simp only [plan_endpoint_model] at he
      injection he with h
      rw [← h]
  | none =>
    cases hb : build_assistant_message describe u (chain_actions captured json_acts u) with
    | none =>
      refine ⟨?_, ?_⟩
      · intro r hr
        simp only [plan_endpoint_model, hb] at hr
        cases hr
      · intro e' he
        simp only [plan_endpoint_model, hb] at he
        injection he with h
        rw [← h]
    | some m =>
      refine ⟨?_, ?_⟩
      · intro r hr
        simp only [plan_endpoint_model, hb] at hr
        injection hr with h
        rw [← h]
        exact ⟨rfl, chain_actions_ne_nil captured json_acts u⟩
      · intro e' he
        simp only [plan_endpoint_model, hb] at he
        cases he

/-- Witness for C1: a successful plan over a captured `create_file` action is
returned intact and non-empty, and a raised exception surfaces as a 500. -/
theorem plan_endpoint_service_witness :
    capExample ≠ ([] : List Json) ∧ (HTTPErrorM.mk 500 "boom").status = 500 := by
  refine ⟨?_, (plan_endpoint_service (fun _ => []) (some "boom") [] [] []).2 ⟨500, "boom"⟩ rfl⟩
  exact ((plan_endpoint_service (fun _ => []) none capExample [] (chars "hi")).1
    ⟨chars "✅ changes applied (1 create, 0 update, 0 delete, 0 run). You asked: “hi”.", capExample⟩
    (by rfl)).2

end Planner
